import Mathlib

/-!
# Verification of the Excel consolidator (`src/app.py`)

A shallow embedding of the `ExcelConsolidator` class from `src/app.py` and
proofs about it.  Dataframes are modelled as `Table` (a column-name list plus
positionally aligned rows of `Value` cells), pandas/Python operations are
modelled as total Lean functions, and Python exceptions are modelled with
`Except String`.  Numeric cells are modelled with `ℚ` (Python int/float
arithmetic; floating-point rounding is not relevant to any property below).
-/

namespace App

/-- A spreadsheet cell: a number, a string, or a missing value (pandas `NaN`). -/
inductive Value where
  | num (q : ℚ)
  | str (s : String)
  | null
deriving DecidableEq, Repr

/-- A dataframe row: cells positionally aligned with the table's column list. -/
abbrev Row := List Value

/-- A pandas dataframe: ordered column names plus rows of cells.  Cell `(i, c)`
is `rows[i][cols.indexOf c]`.  Column labels are assumed unique (duplicate
labels change pandas indexing semantics and never arise in the claims). -/
structure Table where
  cols : List String
  rows : List Row
deriving DecidableEq, Repr

/-- `str(cell)` as Python renders it inside `row.astype(str)` and f-strings:
numbers print their numeral, strings print themselves, and `NaN` prints
`"nan"`.  Integral rationals print like Python ints; the exact rendering of
non-integral numbers is abstracted (no claim depends on it). -/
def pyStr (v : Value) : String :=
  match v with
  | .num q => if q.den = 1 then toString q.num else toString q.num ++ "/" ++ toString q.den
  | .str s => s
  | .null => "nan"

/-! ## String normalization (Python `lower` / `strip` / `replace(' ', '_')`) -/

/-- Python `str.lower()` on one character (ASCII case mapping, which is all the
source's column names and keywords use). -/
def pyLowerChar (c : Char) : Char :=
  if 65 ≤ c.toNat ∧ c.toNat ≤ 90 then Char.ofNat (c.toNat + 32) else c

/-- Python `str.lower()`. -/
def pyLower (s : String) : String := ⟨s.data.map pyLowerChar⟩

/-- Leading- and trailing-whitespace removal on a character list. -/
def stripChars (l : List Char) : List Char :=
  ((l.dropWhile Char.isWhitespace).reverse.dropWhile Char.isWhitespace).reverse

/-- Python `str.strip()`. -/
def pyStrip (s : String) : String := ⟨stripChars s.data⟩

/-- One character of Python `str.replace(" ", "_")`. -/
def subChar (c : Char) : Char := if c = ' ' then '_' else c

/-- Python `str.replace(" ", "_")` (single-character replacement, hence a
character map). -/
def pyUnderscore (s : String) : String := ⟨s.data.map subChar⟩

/-- `k.lower().strip().replace(" ", "_")` — the normalization applied to
keywords in `__init__` (line 14) and to column names inside `smart_search`
(line 36). -/
def pyNormKw (s : String) : String := pyUnderscore (pyStrip (pyLower s))

/-- `col.strip().lower().replace(' ', '_')` — the normalization applied to
column names in `clean_and_standardize` (line 55). -/
def pyNormCol (s : String) : String := pyUnderscore (pyLower (pyStrip s))

/-- `self.keywords = [k.lower().strip().replace(" ", "_") for k in keywords]
if keywords else []` (line 14). -/
def mkKeywords (keywords : List String) : List String :=
  if keywords = [] then [] else keywords.map pyNormKw

/-! ## Regular expressions

`smart_search` builds `'|'.join(self.keywords)` and hands it to
`Series.str.contains`, i.e. Python `re.search` with `re.IGNORECASE`
(line 39).  We model the fragment of Python's regex language that such
patterns can use: literal characters, alternation `|`, grouping `(...)`,
the wildcard `.` and the postfix operators `*`, `+`, `?`.  Malformed
patterns (for instance an unbalanced `(`) are parse errors, exactly as
`re.compile` raises `re.error`.  The remaining metacharacters
(`[ ] \x7b \x7d \ ^ $`) are outside the modelled subset and are mapped to
errors; no claim depends on their successful interpretation. -/

/-- Regular-expression abstract syntax. -/
inductive Rex where
  | fail
  | eps
  | chr (c : Char)
  | dot
  | alt (a b : Rex)
  | cat (a b : Rex)
  | star (a : Rex)
deriving DecidableEq, Repr

/-- Does the regex accept the empty string? -/
def Rex.nullable : Rex → Bool
  | .fail => false
  | .eps => true
  | .chr _ => false
  | .dot => false
  | .alt a b => a.nullable || b.nullable
  | .cat a b => a.nullable && b.nullable
  | .star _ => true

/-- Brzozowski derivative with respect to one input character.  Character
comparison is case-insensitive (`re.IGNORECASE`, from `case=False` on
line 39); `.` matches any character except a newline (Python default). -/
def Rex.deriv (r : Rex) (c : Char) : Rex :=
  match r with
  | .fail => .fail
  | .eps => .fail
  | .chr d => if pyLowerChar d = pyLowerChar c then .eps else .fail
  | .dot => if c = '\n' then .fail else .eps
  | .alt a b => .alt (a.deriv c) (b.deriv c)
  | .cat a b =>
    if a.nullable then .alt (.cat (a.deriv c) b) (b.deriv c)
    else .cat (a.deriv c) b
  | .star a => .cat (a.deriv c) (.star a)

/-- Does the regex match some prefix of the character list? -/
def Rex.matchesPref (r : Rex) : List Char → Bool
  | [] => r.nullable
  | c :: cs => r.nullable || (r.deriv c).matchesPref cs

/-- Python `re.search`: does the regex match starting at some position? -/
def Rex.search (r : Rex) : List Char → Bool
  | [] => r.nullable
  | c :: cs => r.matchesPref (c :: cs) || r.search cs

mutual

/-- Parse an alternation (`a|b|...`).  Fuel-indexed recursive descent; the
fuel passed by `parseRe` always suffices. -/
def pAlt : Nat → List Char → Except String (Rex × List Char)
  | 0, _ => .error "re.error: parser fuel exhausted"
  | f + 1, cs => do
    let (r, rest) ← pSeq f cs
    match rest with
    | '|' :: rest2 => do
      let (r2, rest3) ← pAlt f rest2
      .ok (.alt r r2, rest3)
    | _ => .ok (r, rest)

/-- Parse a concatenation of postfix atoms, stopping at `|`, `)` or the end. -/
def pSeq : Nat → List Char → Except String (Rex × List Char)
  | 0, _ => .error "re.error: parser fuel exhausted"
  | f + 1, cs =>
    match cs with
    | [] => .ok (.eps, [])
    | ')' :: _ => .ok (.eps, cs)
    | '|' :: _ => .ok (.eps, cs)
    | _ => do
      let (a, rest) ← pPost f cs
      let (b, rest2) ← pSeq f rest
      .ok (.cat a b, rest2)

/-- Parse one atom with an optional postfix quantifier. -/
def pPost : Nat → List Char → Except String (Rex × List Char)
  | 0, _ => .error "re.error: parser fuel exhausted"
  | f + 1, cs => do
    let (a, rest) ← pAtom f cs
    match rest with
    | '*' :: r => .ok (.star a, r)
    | '+' :: r => .ok (.cat a (.star a), r)
    | '?' :: r => .ok (.alt .eps a, r)
    | _ => .ok (a, rest)

/-- Parse one atom: a group, the wildcard, or a literal character.  A
quantifier with nothing to repeat and an unterminated group are `re.error`s,
as in Python. -/
def pAtom : Nat → List Char → Except String (Rex × List Char)
  | 0, _ => .error "re.error: parser fuel exhausted"
  | f + 1, cs =>
    match cs with
    | [] => .error "re.error: unexpected end of pattern"
    | c :: rest =>
      if c = '(' then do
        let (r, rest2) ← pAlt f rest
        match rest2 with
        | ')' :: rest3 => .ok (r, rest3)
        | _ => .error "re.error: missing ), unterminated subpattern"
      else if c = '.' then .ok (.dot, rest)
      else if c = '*' ∨ c = '+' ∨ c = '?' then .error "re.error: nothing to repeat"
      else if c = '[' ∨ c = ']' ∨ c = '\x7b' ∨ c = '\x7d' ∨ c = '\\' ∨ c = '^' ∨ c = '$' then
        .error "re.error: metacharacter outside the modelled subset"
      else .ok (.chr c, rest)

end

/-- Compile a pattern string, requiring the whole input to be consumed.
A leftover `)` is Python's `unbalanced parenthesis` error. -/
def parseRe (pat : String) : Except String Rex :=
  match pAlt (2 * pat.length + 8) pat.data with
  | .error e => .error e
  | .ok (r, []) => .ok r
  | .ok (_, _ :: _) => .error "re.error: unbalanced parenthesis"

/-! ## `smart_search` (lines 32-51) -/

/-- Python `needle in hay` on strings: substring containment (the empty
string is contained in everything, as in Python). -/
def pyInStr (needle hay : String) : Bool := decide (needle.data <:+: hay.data)

/-- One row of the `df.apply(..., axis=1)` on line 39:
`row.astype(str).str.contains('|'.join(self.keywords), case=False).any()`.
The pattern is compiled (raising on malformed regexes) and searched in the
string form of every cell. -/
def rowMatch (kws : List String) (r : Row) : Except String Bool := do
  let rex ← parseRe (String.intercalate "|" kws)
  Except.ok (r.any fun v => rex.search (pyStr v).data)

/-- `df[cols_to_return]`: select the named columns (each present in `t`),
in the given order. -/
def selectCols (t : Table) (cs : List String) : Table :=
  ⟨cs, t.rows.map fun r => cs.map fun c => r.getD (t.cols.indexOf c) Value.null⟩

/-- The selection policy of `smart_search` (lines 42-51), once the matched
columns and matched rows are known.  Every branch returns a table (line 39
is the only place `smart_search` can raise):

* matched columns present: keep them (plus `source_file` / `sheet_name`
  when present), restricted to the matched rows when those are non-empty
  (lines 42-49);
* no matched columns: the matched rows if non-empty, else the whole
  (renamed) frame (line 51). -/
def colsToReturn (df1 : Table) (matchedCols : List String) : List String :=
  (matchedCols.filter fun c => df1.cols.contains c)
    ++ (if df1.cols.contains "source_file" then ["source_file"] else [])
    ++ (if df1.cols.contains "sheet_name" then ["sheet_name"] else [])

/-- The branching of lines 42-51 on the matched columns and rows
(`colsToReturn` is `cols_to_return` of lines 43-45). -/
def chooseResult (df1 : Table) (matchedCols : List String)
    (matchedRows : List Row) : Table :=
  if matchedCols ≠ [] then
    let colsRet := colsToReturn df1 matchedCols
    if matchedRows = [] then
      if colsRet = [] then df1 else selectCols df1 colsRet
    else
      if colsRet = [] then ⟨df1.cols, matchedRows⟩
      else selectCols ⟨df1.cols, matchedRows⟩ colsRet
  else
    if matchedRows ≠ [] then ⟨df1.cols, matchedRows⟩ else df1

/-- `ExcelConsolidator.smart_search` (lines 32-51), as a function of the
normalized keyword list `self.keywords` and the input dataframe.

* line 33-34: empty keyword list returns the dataframe untouched;
* line 36: column names are normalized in place;
* line 37: `matched_cols` — normalized names containing a keyword as a
  substring (Python `in`);
* line 39-40: `matched_rows` via the regex row match (only evaluated row by
  row, so an empty dataframe never compiles the pattern — pandas `apply`
  does not invoke the lambda on an empty frame);
* lines 42-51: the selection policy, `chooseResult`. -/
def smart_search (kws : List String) (df : Table) : Except String Table :=
  if kws = [] then Except.ok df
  else
    let cols1 := df.cols.map pyNormKw
    let df1 : Table := ⟨cols1, df.rows⟩
    let matchedCols := cols1.filter fun c => kws.any fun k => pyInStr k c
    do
    let tm ← df1.rows.mapM (rowMatch kws)
    let matchedRows := (df1.rows.zip tm).filterMap fun p => if p.2 then some p.1 else none
    Except.ok (chooseResult df1 matchedCols matchedRows)

/-- The column renaming `smart_search` performs *in place* on its argument
(line 36): the caller's dataframe has normalized column names afterwards —
unless the keyword list was empty, in which case `smart_search` returned
before touching it. -/
def mutatedInput (kws : List String) (df : Table) : Table :=
  if kws = [] then df else ⟨df.cols.map pyNormKw, df.rows⟩

/-! ## Ingestion (`read_excel_files`, lines 16-30) -/

/-- `df[c] = v` with a scalar: overwrite the column if it exists, else append
it, holding `v` in every row (lines 22-23). -/
def addConstCol (t : Table) (c : String) (v : Value) : Table :=
  if t.cols.contains c then
    ⟨t.cols, t.rows.map fun r => r.set (t.cols.indexOf c) v⟩
  else
    ⟨t.cols ++ [c], t.rows.map fun r => r ++ [v]⟩

/-- `df.empty`: true when either axis has length zero. -/
def tableEmpty (t : Table) : Bool := t.rows.isEmpty || t.cols.isEmpty

/-- `pd.concat([t1, t2], ignore_index=True)` re-aligns every row to the
united column list: a row keeps its value under its own frame's columns and
gets `NaN` (`Value.null`) under the columns its frame lacks.  `alignRow` is
that per-row re-alignment; `pdConcat` below builds the united column list —
`t1`'s columns followed by the columns of `t2` not already present — and
concatenates the re-aligned rows. -/
def alignRow (newCols cols : List String) (r : Row) : Row :=
  newCols.map fun c =>
    if cols.contains c then r.getD (cols.indexOf c) Value.null else Value.null

/-- `pd.concat` proper, using `alignRow` to re-align each side's rows. -/
def pdConcat (t1 t2 : Table) : Table :=
  let newCols := t1.cols ++ t2.cols.filter fun c => ¬ t1.cols.contains c
  ⟨newCols, t1.rows.map (alignRow newCols t1.cols) ++ t2.rows.map (alignRow newCols t2.cols)⟩

/-- Cell access by row position and column label: `t.iloc[i][c]`. -/
def getCell (t : Table) (i : Nat) (c : String) : Value :=
  (t.rows.getD i []).getD (t.cols.indexOf c) Value.null

/-- One sheet (line 21's `xls.parse(sheet)` result, with its name). -/
structure Sheet where
  sname : String
  df : Table
deriving DecidableEq, Repr

/-- One uploaded file: its name and either its parsed sheets or the
exception message raised by `pd.ExcelFile` (line 19). -/
structure PyFile where
  fname : String
  wb : Except String (List Sheet)
deriving Repr

/-- A recorded `st.warning` (line 30): the file name and the exception text. -/
structure Warning where
  wfile : String
  werr : String
deriving DecidableEq, Repr

/-- The sheet loop inside the `try` block (lines 20-28): tag the sheet with
`source_file` and `sheet_name`, run `smart_search`, and concatenate either
the filtered frame or — when the filtered frame is empty — the (mutated)
original.  An exception from `smart_search` aborts the remaining sheets of
this file and is reported to the caller. -/
def processSheets (kws : List String) (fname : String) :
    Table → List Sheet → Table × Option String
  | acc, [] => (acc, none)
  | acc, s :: rest =>
    let df := addConstCol (addConstCol s.df "source_file" (Value.str fname))
      "sheet_name" (Value.str s.sname)
    match smart_search kws df with
    | .error e => (acc, some e)
    | .ok filtered =>
      let acc2 := if ¬ tableEmpty filtered then pdConcat acc filtered
                  else pdConcat acc (mutatedInput kws df)
      processSheets kws fname acc2 rest

/-- One iteration of the file loop (lines 17-30): a failed `pd.ExcelFile`
or an exception inside the sheet loop records a warning naming the file and
its error; the accumulated table keeps whatever was concatenated so far. -/
def processFile (kws : List String) (acc : Table × List Warning) (f : PyFile) :
    Table × List Warning :=
  match f.wb with
  | .error e => (acc.1, acc.2 ++ [⟨f.fname, e⟩])
  | .ok sheets =>
    match processSheets kws f.fname acc.1 sheets with
    | (t, none) => (t, acc.2)
    | (t, some e) => (t, acc.2 ++ [⟨f.fname, e⟩])

/-- `ExcelConsolidator.read_excel_files` (lines 16-30), starting from the
empty `combined_df` built in `__init__` (line 13); returns the accumulated
frame and the recorded warnings. -/
def read_excel_files (kws : List String) (files : List PyFile) : Table × List Warning :=
  files.foldl (processFile kws) (⟨[], []⟩, [])

/-! ## Cleaning and deduplication (lines 53-64) -/

/-- Is every cell of the row missing?  (`dropna(how='all')`'s per-row test.) -/
def isNullRow (r : Row) : Bool := r.all fun v => v == Value.null

/-- `ExcelConsolidator.clean_and_standardize` (lines 53-55): drop the rows
whose cells are all `NaN`, then normalize every column name. -/
def clean_and_standardize (t : Table) : Table :=
  ⟨t.cols.map pyNormCol, t.rows.filter fun r => ¬ isNullRow r⟩

/-- Keep the rows not seen before (`drop_duplicates` worker; `seen` is the
set of rows already emitted). -/
def dedupAux (seen : List Row) : List Row → List Row
  | [] => []
  | r :: rs => if seen.contains r then dedupAux seen rs else r :: dedupAux (r :: seen) rs

/-- Keep the first occurrence of each row (`drop_duplicates`, line 58;
pandas compares `NaN` cells as equal here, as does `Value.null`). -/
def dedupRows (l : List Row) : List Row := dedupAux [] l

/-- `ExcelConsolidator.deduplicate` (lines 57-58). -/
def deduplicate (t : Table) : Table := ⟨t.cols, dedupRows t.rows⟩

/-- `ExcelConsolidator.consolidate` (lines 60-64): ingestion, cleaning,
deduplication; returns the unified table (and the warnings recorded along
the way). -/
def consolidate (kws : List String) (files : List PyFile) : Table × List Warning :=
  let (t, ws) := read_excel_files kws files
  (deduplicate (clean_and_standardize t), ws)

/-! ## `generate_insights` (lines 66-107)

pandas aggregation semantics for a possibly object-dtyped column:
`sum`/`mean` mask `NaN` cells and then reduce with Python `+`, which raises
`TypeError` when a number meets a string; `sort_values(ascending=False)`
goes through `pandas.core.sorting.nargsort`, which reverses the non-`NaN`
rows, takes a stable ascending argsort, and reverses the resulting indexer
— so tied rows keep their original order — then appends the `NaN` rows
(numpy's argsort is stable on the short arrays at issue), raising
`TypeError` when the compared keys mix numbers and strings.  f-string
formatting with `:,.2f` raises `ValueError` on a string value; the exact
digit/comma rendering of numbers is abstracted by `pyStr`. -/

/-- Exact rational addition, written with `mkRat` so that it evaluates by
kernel reduction (`Rat.add` is irreducible); `qAdd_eq_add` below proves it
is ordinary `+` on `ℚ`. -/
def qAdd (a b : ℚ) : ℚ := mkRat (a.num * b.den + b.num * a.den) (a.den * b.den)

/-- Exact division by a natural number, written with `mkRat` for the same
reason; `qDivNat_eq_div` below proves it is ordinary `/` on `ℚ`. -/
def qDivNat (a : ℚ) (n : Nat) : ℚ := mkRat a.num (a.den * n)

/-- Python `+` on two cell values. -/
def vAdd (a b : Value) : Except String Value :=
  match a, b with
  | .num x, .num y => .ok (.num (qAdd x y))
  | .str x, .str y => .ok (.str (x ++ y))
  | _, _ => .error "TypeError: unsupported operand types for +"

/-- `Series.sum()` (skipna): mask the `NaN`s, reduce with `+`, empty sums
to `0`. -/
def pdSum (vs : List Value) : Except String Value :=
  match vs.filter fun v => ¬ (v == Value.null) with
  | [] => .ok (.num 0)
  | v :: rest => rest.foldlM vAdd v

/-- `Series.mean()` (skipna): the masked sum divided by the masked count;
an empty column gives `NaN`, a string sum raises `TypeError`. -/
def pdMean (vs : List Value) : Except String Value :=
  match vs.filter fun v => ¬ (v == Value.null) with
  | [] => .ok .null
  | v :: rest => do
    let s ← rest.foldlM vAdd v
    match s with
    | .num q => .ok (.num (qDivNat q (rest.length + 1)))
    | _ => .error "TypeError: could not compute the mean of a non-numeric sum"

/-- An f-string `$\x7bx:,.2f\x7d`: numbers format, `NaN` prints `nan`, a
string raises `ValueError`. -/
def pyFormatMoney (v : Value) : Except String String :=
  match v with
  | .num q => .ok (pyStr (.num q))
  | .null => .ok "nan"
  | .str _ => .error "ValueError: unknown format code f for object of type str"

/-- The column labelled `c`, as the positional cell list. -/
def getCol (t : Table) (c : String) : List Value :=
  t.rows.map fun r => r.getD (t.cols.indexOf c) Value.null

/-- The sort key of a row for `sort_values(by=c)`. -/
def rowKey (t : Table) (c : String) (r : Row) : Value :=
  r.getD (t.cols.indexOf c) Value.null

def isNumV : Value → Bool | .num _ => true | _ => false

def isStrV : Value → Bool | .str _ => true | _ => false

/-- The Boolean comparison driving the sort: `≤` within one kind; the
cross-kind case never drives a sort (it raises first, see `mixedKinds`). -/
def vle (a b : Value) : Bool :=
  match a, b with
  | .num x, .num y => decide (x ≤ y)
  | .str x, .str y => decide (x ≤ y)
  | _, _ => true

/-- Do the sort keys mix numbers and strings?  Sorting such a column raises
`TypeError` (every element is compared at least once). -/
def mixedKinds (ks : List Value) : Bool := ks.any isNumV && ks.any isStrV

/-- `t.sort_values(by=c, ascending=False)`: `pandas.core.sorting.nargsort`
reverses the non-`NaN` values *and* their indices, takes a stable ascending
argsort, and reverses the resulting indexer again, so the descending order
is the reverse of a stable ascending sort of the *reversed* rows — the
double reversal keeps tied rows in their original order (first occurrence
first, pandas GH 6399).  The `NaN`-keyed rows follow (`na_position='last'`).
The underlying argsort is modelled as stable, which numpy guarantees for
`kind='stable'` and, via its insertion-sort path, for the short arrays at
issue. -/
def pdSortValuesDesc (t : Table) (c : String) : Except String Table :=
  let key := rowKey t c
  let nonNull := t.rows.filter fun r => ¬ (key r == Value.null)
  let nulls := t.rows.filter fun r => key r == Value.null
  if mixedKinds (nonNull.map key) then
    Except.error "TypeError: unorderable types in sort"
  else
    Except.ok ⟨t.cols,
      (List.insertionSort (fun a b => vle (key a) (key b) = true) nonNull.reverse).reverse
        ++ nulls⟩

/-- `df.head(1)`. -/
def headTable (t : Table) : Table := ⟨t.cols, t.rows.take 1⟩

/-- First occurrences of the distinct values of a list (worker). -/
def dedupValsAux (seen : List Value) : List Value → List Value
  | [] => []
  | v :: vs =>
    if seen.contains v then dedupValsAux seen vs else v :: dedupValsAux (v :: seen) vs

/-- First occurrences of the distinct values of a list. -/
def dedupVals (l : List Value) : List Value := dedupValsAux [] l

/-- `Series.value_counts().to_dict()` (insertion-ordered dict): the distinct
non-`NaN` values with their multiplicities, sorted by descending count
(stably over first appearance). -/
def valueCounts (vs : List Value) : List (Value × Nat) :=
  let nn := vs.filter fun v => ¬ (v == Value.null)
  List.insertionSort (fun p q => q.2 ≤ p.2) ((dedupVals nn).map fun k => (k, nn.count k))

/-- Line 74. -/
def msgTotalRevenue (s : String) : String := "💰 **Total Revenue**: `$" ++ s ++ "`"

/-- Line 75. -/
def msgAvgRevenue (s : String) : String := "📈 **Avg Revenue per Entry**: `$" ++ s ++ "`"

/-- Line 78. -/
def msgTopClient (s : String) : String := "🏆 **Top Client by Revenue**: `" ++ s ++ "`"

/-- Line 79. -/
def msgRevenueSummary (tot avg tc : String) : String :=
  "Revenue totals `$" ++ tot ++ "`. Average per row: `$" ++ avg
    ++ "`. Top performer: `" ++ tc ++ "`."

/-- Line 84. -/
def msgTotalAum (s : String) : String := "🏦 **Total AUM**: `$" ++ s ++ "`"

/-- Line 87. -/
def msgTopAum (s : String) : String := "👑 **Top AUM Holder**: `" ++ s ++ "`"

/-- Line 88. -/
def msgAumSummary (tot th : String) : String :=
  "AUM stands at `$" ++ tot ++ "`. Highest holding from `" ++ th ++ "`."

/-- Line 92. -/
def msgPerfBreakdown (vc : List (Value × Nat)) : String :=
  "📊 **Performance Breakdown**:<br>"
    ++ String.intercalate "<br>" (vc.map fun p => "- " ++ pyStr p.1 ++ ": " ++ toString p.2)

/-- Line 94. -/
def msgPerfSummary (k : String) : String :=
  "Most frequent performance rating is `" ++ k ++ "`. Overall breakdown available above."

/-- Line 99. -/
def msgJuris (k : String) (n : Nat) : String :=
  "🌍 **Most Common Jurisdiction**: `" ++ k ++ "` (" ++ toString n ++ " entries)"

/-- Line 100. -/
def msgJurisSummary (k : String) (n : Nat) : String :=
  "The jurisdiction `" ++ k ++ "` appears most frequently, with `" ++ toString n ++ "` entries."

/-- Line 104. -/
def msgCalls (s : String) : String := "📞 **Total Calls Logged**: `" ++ s ++ "`"

/-- Line 105. -/
def msgCallsSummary (s : String) : String :=
  "Across all data, `" ++ s ++ "` calls have been logged."

/-- The `revenue` block (lines 70-79).  The guarded branch (lines 76-78)
assigns `top_client`; line 79 reads `top_client` *outside* that guard, so a
frame with `revenue` but no `client_name` raises `NameError`, and an empty
frame with both columns raises `IndexError` at `iloc[0]` (line 77). -/
def revenueBlock (t : Table) : Except String (List String × List String) :=
  if t.cols.contains "revenue" then do
    let col := getCol t "revenue"
    let total ← pdSum col
    let avg ← pdMean col
    let sorted ← pdSortValuesDesc t "revenue"
    let topRevenue := headTable sorted
    let totS ← pyFormatMoney total
    let avgS ← pyFormatMoney avg
    let base := [msgTotalRevenue totS, msgAvgRevenue avgS]
    if topRevenue.cols.contains "client_name" then
      match topRevenue.rows.head? with
      | none => Except.error "IndexError: single positional indexer is out-of-bounds"
      | some r =>
        let tc := pyStr (r.getD (topRevenue.cols.indexOf "client_name") Value.null)
        Except.ok (base ++ [msgTopClient tc], [msgRevenueSummary totS avgS tc])
    else Except.error "NameError: name top_client is not defined"
  else Except.ok ([], [])

/-- The `aum` block (lines 81-88); line 88 reads `top_holder` outside the
`client_name` guard, mirroring the `revenue` block. -/
def aumBlock (t : Table) : Except String (List String × List String) :=
  if t.cols.contains "aum" then do
    let col := getCol t "aum"
    let total ← pdSum col
    let sorted ← pdSortValuesDesc t "aum"
    let topAum := headTable sorted
    let totS ← pyFormatMoney total
    let base := [msgTotalAum totS]
    if topAum.cols.contains "client_name" then
      match topAum.rows.head? with
      | none => Except.error "IndexError: single positional indexer is out-of-bounds"
      | some r =>
        let th := pyStr (r.getD (topAum.cols.indexOf "client_name") Value.null)
        Except.ok (base ++ [msgTopAum th], [msgAumSummary totS th])
    else Except.error "NameError: name top_holder is not defined"
  else Except.ok ([], [])

/-- The `performance` block (lines 90-94); `max` over an empty dict (every
cell `NaN`) raises `ValueError`.  `max(d, key=d.get)` returns the first
maximal key in dict order, i.e. the head of the count-sorted list. -/
def perfBlock (t : Table) : Except String (List String × List String) :=
  if t.cols.contains "performance" then
    let vc := valueCounts (getCol t "performance")
    match vc.head? with
    | none => Except.error "ValueError: max arg is an empty sequence"
    | some p => Except.ok ([msgPerfBreakdown vc], [msgPerfSummary (pyStr p.1)])
  else Except.ok ([], [])

/-- The `jurisdiction` block (lines 96-100); `idxmax` on an empty
`value_counts` (every cell `NaN`) raises `ValueError`. -/
def jurisBlock (t : Table) : Except String (List String × List String) :=
  if t.cols.contains "jurisdiction" then
    let vc := valueCounts (getCol t "jurisdiction")
    match vc.head? with
    | none => Except.error "ValueError: attempt to get argmax of an empty sequence"
    | some p => Except.ok ([msgJuris (pyStr p.1) p.2], [msgJurisSummary (pyStr p.1) p.2])
  else Except.ok ([], [])

/-- The `call_(x)` block (lines 102-105); the f-string has no format spec,
so any summed value renders with `str`. -/
def callsBlock (t : Table) : Except String (List String × List String) :=
  if t.cols.contains "call_(x)" then do
    let total ← pdSum (getCol t "call_(x)")
    Except.ok ([msgCalls (pyStr total)], [msgCallsSummary (pyStr total)])
  else Except.ok ([], [])

/-- `ExcelConsolidator.generate_insights` (lines 66-107): the five hardcoded
column blocks in order, appending to the `insights` and `detailed_summary`
lists; the first Python exception aborts the whole call. -/
def generate_insights (t : Table) : Except String (List String × List String) := do
  let (i1, d1) ← revenueBlock t
  let (i2, d2) ← aumBlock t
  let (i3, d3) ← perfBlock t
  let (i4, d4) ← jurisBlock t
  let (i5, d5) ← callsBlock t
  Except.ok (i1 ++ i2 ++ i3 ++ i4 ++ i5, d1 ++ d2 ++ d3 ++ d4 ++ d5)

/-! ## Specification-side notions for the top-revenue row -/

/-- The last element of the list that is maximal for `r` (on ties the later
occurrence wins): the last element of a stable ascending sort, used below
to characterise the sort's output. -/
def lastMaxOf {α : Type} (r : α → α → Prop) [DecidableRel r] : List α → Option α
  | [] => none
  | x :: xs =>
    match lastMaxOf r xs with
    | none => some x
    | some m => some (if r x m then m else x)

/-- The rational carried by a numeric cell (`0` otherwise; only applied to
numeric cells). -/
def qOf : Value → ℚ
  | .num q => q
  | _ => 0

/-- Row comparison by the `revenue` cell, as the sort uses it. -/
def revRowLe (t : Table) (a b : Row) : Prop :=
  vle (rowKey t "revenue" a) (rowKey t "revenue" b) = true

instance revRowLeDec (t : Table) : DecidableRel (revRowLe t) := fun _ _ =>
  inferInstanceAs (Decidable (_ = true))

/-- Row comparison by the rational carried by the `revenue` cell: the total
transitive order the sort follows on all-numeric keys. -/
def qRowLe (t : Table) (a b : Row) : Prop :=
  qOf (rowKey t "revenue" a) ≤ qOf (rowKey t "revenue" b)

instance qRowLeDec (t : Table) : DecidableRel (qRowLe t) := fun _ _ =>
  inferInstanceAs (Decidable (_ ≤ _))

/-! ## Concrete tables and files used by witnesses and counterexamples -/

def tabAB : Table := ⟨["a", "b"], [[Value.num 1, Value.num 2]]⟩

def tabCD : Table := ⟨["c", "d"], [[Value.num 3, Value.num 4]]⟩

def fileW : PyFile := ⟨"f1.xlsx", .ok [⟨"s1", ⟨["A B"], [[Value.str "x"]]⟩⟩]⟩

def fileBad : PyFile := ⟨"f2.xlsx", .error "corrupt"⟩

def fileW2 : PyFile := ⟨"f3.xlsx", .ok [⟨"s1", ⟨["c"], [[Value.num 2]]⟩⟩]⟩

def tabRev : Table := ⟨["Revenue"], [[Value.num 5]]⟩

def tabRevOut : Table := ⟨["revenue"], [[Value.num 5]]⟩

def sheetC : Sheet := ⟨"s1", ⟨["c"], [[Value.num 2]]⟩⟩

def tabSheetOut : Table :=
  ⟨["c", "source_file", "sheet_name"], [[Value.num 2, Value.str "f", Value.str "s1"]]⟩

/-! ## Claim theorems -/

/-- The model's cell addition is ordinary addition on `ℚ`. -/
theorem qAdd_eq_add (a b : ℚ) : qAdd a b = a + b := by
  rw [qAdd, Rat.mkRat_eq_div]
  have ha : (a.den : ℚ) ≠ 0 := by exact_mod_cast a.den_nz
  have hb : (b.den : ℚ) ≠ 0 := by exact_mod_cast b.den_nz
  conv_rhs => rw [← Rat.num_div_den a, ← Rat.num_div_den b]
  push_cast
  field_simp

/-- The model's division by a count is ordinary division on `ℚ`. -/
theorem qDivNat_eq_div (a : ℚ) (n : Nat) : qDivNat a n = a / n := by
  rw [qDivNat, Rat.mkRat_eq_div]
  rcases n with _ | m
  · simp
  · have ha : (a.den : ℚ) ≠ 0 := by exact_mod_cast a.den_nz
    have hn : ((m + 1 : ℕ) : ℚ) ≠ 0 := by positivity
    conv_rhs => rw [← Rat.num_div_den a]
    push_cast
    field_simp

/-- C1: the claim demands that on a table with a `revenue` column but no
`client_name` column, `generate_insights` skips the top-client clause and
still reports total and average revenue.  The code does not: line 79 reads
the local `top_client` outside the `client_name` guard of lines 76-78, so
the call raises `NameError` and reports nothing.  This theorem evaluates the
embedded code at such a table. -/
theorem claim_C1_code_raises_NameError :
    generate_insights ⟨["revenue"], [[Value.num 100], [Value.num 200]]⟩
      = Except.error "NameError: name top_client is not defined" := by
  rfl

/-- C3: the claim demands that non-numeric cells in `revenue` are excluded
from the sum and mean and that insight generation completes.  The code
computes `self.combined_df['revenue'].sum()` directly, and pandas reduces an
object column with Python `+`, so a numeric cell plus a string cell raises
`TypeError` and kills the whole call.  This theorem evaluates the embedded
code at such a table. -/
theorem claim_C3_code_raises_TypeError :
    generate_insights ⟨["revenue"], [[Value.num 100], [Value.str "abc"]]⟩
      = Except.error "TypeError: unsupported operand types for +" := by
  rfl

/-- C6: with an empty keyword set, `smart_search` is the identity — it
returns at line 33-34 before renaming, filtering, or matching anything. -/
theorem claim_C6_empty_keywords_identity (df : Table) :
    smart_search [] df = Except.ok df := by
  rfl

/-- C9: `smart_search` joins the keywords with `'|'` and hands the result to
`str.contains` as a regular expression, so the keyword `"("` — a regex
metacharacter forming an unterminated group — makes matching a non-empty
table raise `re.error` instead of doing literal substring matching. -/
theorem claim_C9_regex_metachar_raises :
    smart_search ["("] ⟨["a"], [[Value.str "hello"]]⟩
      = Except.error "re.error: missing ), unterminated subpattern" := by
  rfl

/-- `lastMaxOf` picks an element of the list. -/
theorem lastMaxOf_mem {α : Type} (r : α → α → Prop) [DecidableRel r] :
    ∀ (l : List α) (m : α), lastMaxOf r l = some m → m ∈ l := by
  intro l
  induction l with
  | nil => intro m hm; cases hm
  | cons x xs ih =>
    intro m hm
    rw [lastMaxOf] at hm
    rcases h : lastMaxOf r xs with _ | m'
    · rw [h] at hm
      injection hm with hm
      exact hm ▸ List.mem_cons_self x xs
    · rw [h] at hm
      injection hm with hm
      by_cases hx : r x m'
      · rw [if_pos hx] at hm
        exact hm ▸ List.mem_cons_of_mem x (ih m' h)
      · rw [if_neg hx] at hm
        exact hm ▸ List.mem_cons_self x xs

/-- Two comparisons agreeing on the list pick the same last maximum. -/
theorem lastMaxOf_congr {α : Type} (r1 r2 : α → α → Prop)
    [DecidableRel r1] [DecidableRel r2] :
    ∀ (l : List α), (∀ a ∈ l, ∀ b ∈ l, (r1 a b ↔ r2 a b)) →
    lastMaxOf r1 l = lastMaxOf r2 l := by
  intro l
  induction l with
  | nil => intro _; rfl
  | cons x xs ih =>
    intro hiff
    rw [lastMaxOf, lastMaxOf,
      ih fun a ha b hb => hiff a (List.mem_cons_of_mem x ha) b (List.mem_cons_of_mem x hb)]
    rcases h : lastMaxOf r2 xs with _ | m
    · rfl
    · have hm : m ∈ xs := lastMaxOf_mem r2 xs m h
      show some (if r1 x m then m else x) = some (if r2 x m then m else x)
      exact congrArg some
        (if_congr (hiff x (List.mem_cons_self x xs) m (List.mem_cons_of_mem x hm)) rfl rfl)

/-- A re-aligned row is null under a column its source frame lacks. -/
theorem alignRow_getD_not_mem (newCols cols : List String) (r : Row) (c : String)
    (hc : c ∈ newCols) (hnc : ¬ cols.contains c = true) :
    (alignRow newCols cols r).getD (newCols.indexOf c) Value.null = Value.null := by
  have hidx : newCols.indexOf c < newCols.length := List.indexOf_lt_length.mpr hc
  rw [alignRow, List.getD_eq_getElem?_getD, List.getElem?_map,
    List.getElem?_eq_getElem hidx]
  have hm : c ∉ cols := by simpa using hnc
  simp [List.getElem_indexOf hidx, hm]

theorem pdConcat_rows_left (t1 t2 : Table) (i : Nat) (hi : i < t1.rows.length) :
    (pdConcat t1 t2).rows.getD i []
      = alignRow (pdConcat t1 t2).cols t1.cols (t1.rows.getD i []) := by
  show (t1.rows.map _ ++ t2.rows.map _).getD i [] = _
  rw [List.getD_eq_getElem?_getD, List.getElem?_append_left (by simpa using hi),
    List.getElem?_map, List.getElem?_eq_getElem hi]
  simp only [Option.map_some, Option.getD_some, List.getD_eq_getElem?_getD,
    List.getElem?_eq_getElem hi]
  rfl

theorem pdConcat_rows_right (t1 t2 : Table) (j : Nat) (hj : j < t2.rows.length) :
    (pdConcat t1 t2).rows.getD (t1.rows.length + j) []
      = alignRow (pdConcat t1 t2).cols t2.cols (t2.rows.getD j []) := by
  show (t1.rows.map _ ++ t2.rows.map _).getD (t1.rows.length + j) [] = _
  rw [List.getD_eq_getElem?_getD, List.getElem?_append_right (by simp),
    List.length_map, Nat.add_sub_cancel_left, List.getElem?_map,
    List.getElem?_eq_getElem hj]
  simp only [Option.map_some, Option.getD_some, List.getD_eq_getElem?_getD,
    List.getElem?_eq_getElem hj]
  rfl

/-- C7: concatenating two tables with disjoint column sets during
consolidation unions the columns, leaves each row null under the columns
its source table lacked, and the pre-deduplication row count is the sum of
the input row counts. -/
theorem claim_C7_union_concat (t1 t2 : Table)
    (hd : ∀ c ∈ t1.cols, c ∉ t2.cols) :
    (pdConcat t1 t2).cols = t1.cols ++ t2.cols
    ∧ (pdConcat t1 t2).rows.length = t1.rows.length + t2.rows.length
    ∧ (∀ i < t1.rows.length, ∀ c ∈ t2.cols, getCell (pdConcat t1 t2) i c = Value.null)
    ∧ (∀ j < t2.rows.length, ∀ c ∈ t1.cols,
        getCell (pdConcat t1 t2) (t1.rows.length + j) c = Value.null) := by
  have hd2 : ∀ c ∈ t2.cols, c ∉ t1.cols := by
    intro c hc hmem
    exact hd c hmem hc
  have hcols : (pdConcat t1 t2).cols = t1.cols ++ t2.cols := by
    show t1.cols ++ t2.cols.filter _ = t1.cols ++ t2.cols
    congr 1
    rw [List.filter_eq_self]
    intro c hc
    simpa using hd2 c hc
  refine ⟨hcols, ?_, ?_, ?_⟩
  · simp [pdConcat]
  · intro i hi c hc
    rw [getCell, pdConcat_rows_left t1 t2 i hi]
    exact alignRow_getD_not_mem _ _ _ _
      (by rw [hcols]; exact List.mem_append_right _ hc)
      (by simpa using hd2 c hc)
  · intro j hj c hc
    rw [getCell, pdConcat_rows_right t1 t2 j hj]
    exact alignRow_getD_not_mem _ _ _ _
      (by rw [hcols]; exact List.mem_append_left _ hc)
      (by simpa using hd c hc)

/-- C7 witness: the theorem applied to the concrete one-row tables with
columns `{a, b}` and `{c, d}`. -/
theorem claim_C7_union_concat_witness :
    (∀ c ∈ tabAB.cols, c ∉ tabCD.cols)
    ∧ ((pdConcat tabAB tabCD).cols = tabAB.cols ++ tabCD.cols
      ∧ (pdConcat tabAB tabCD).rows.length = tabAB.rows.length + tabCD.rows.length
      ∧ (∀ i < tabAB.rows.length, ∀ c ∈ tabCD.cols,
          getCell (pdConcat tabAB tabCD) i c = Value.null)
      ∧ (∀ j < tabCD.rows.length, ∀ c ∈ tabAB.cols,
          getCell (pdConcat tabAB tabCD) (tabAB.rows.length + j) c = Value.null)) :=
  ⟨by decide, claim_C7_union_concat tabAB tabCD (by decide)⟩

/-- `str.lower()`'s character map sends an upper-case letter 32 code points
up. -/
theorem pyLowerChar_toNat_upper {c : Char} (h1 : 65 ≤ c.toNat) (h2 : c.toNat ≤ 90) :
    (pyLowerChar c).toNat = c.toNat + 32 := by
  have hv : (c.toNat + 32).isValidChar := Or.inl (by omega)
  rw [pyLowerChar, if_pos ⟨h1, h2⟩, Char.ofNat, dif_pos hv]
  rfl

/-- `str.lower()`'s character map is idempotent. -/
theorem pyLowerChar_idem (c : Char) : pyLowerChar (pyLowerChar c) = pyLowerChar c := by
  by_cases h : 65 ≤ c.toNat ∧ c.toNat ≤ 90
  · have h2 : (pyLowerChar c).toNat = c.toNat + 32 := pyLowerChar_toNat_upper h.1 h.2
    have hv : pyLowerChar (pyLowerChar c)
        = if 65 ≤ (pyLowerChar c).toNat ∧ (pyLowerChar c).toNat ≤ 90 then
            Char.ofNat ((pyLowerChar c).toNat + 32) else pyLowerChar c := rfl
    rw [hv, h2, if_neg (by omega)]
  · have hc : pyLowerChar c = c := by rw [pyLowerChar, if_neg h]
    rw [hc]
    exact hc

/-- No character of code point 65 or above is whitespace. -/
theorem isWhitespace_eq_false_of_ge {c : Char} (h : 65 ≤ c.toNat) :
    c.isWhitespace = false := by
  rw [Char.isWhitespace]
  have h1 : c ≠ ' ' := by intro he; subst he; revert h; decide
  have h2 : c ≠ '\t' := by intro he; subst he; revert h; decide
  have h3 : c ≠ '\r' := by intro he; subst he; revert h; decide
  have h4 : c ≠ '\n' := by intro he; subst he; revert h; decide
  simp [h1, h2, h3, h4]

/-- Lower-casing does not change whether a character is whitespace. -/
theorem isWhitespace_pyLowerChar (c : Char) :
    (pyLowerChar c).isWhitespace = c.isWhitespace := by
  by_cases h : 65 ≤ c.toNat ∧ c.toNat ≤ 90
  · rw [isWhitespace_eq_false_of_ge (c := pyLowerChar c)
      (by rw [pyLowerChar_toNat_upper h.1 h.2]; omega),
      isWhitespace_eq_false_of_ge h.1]
  · rw [show pyLowerChar c = c from by rw [pyLowerChar, if_neg h]]

/-- Space-to-underscore does not introduce whitespace. -/
theorem isWhitespace_subChar {c : Char} (h : c.isWhitespace = false) :
    (subChar c).isWhitespace = false := by
  rw [subChar]
  split
  · decide
  · exact h

/-- The composed normalization character map is idempotent. -/
theorem subChar_pyLowerChar_idem (c : Char) :
    subChar (pyLowerChar (subChar (pyLowerChar c))) = subChar (pyLowerChar c) := by
  by_cases he : pyLowerChar c = ' '
  · rw [he]
    decide
  · rw [show subChar (pyLowerChar c) = pyLowerChar c from by rw [subChar, if_neg he],
      pyLowerChar_idem, subChar, if_neg he]

/-- The head of a `dropWhile` result fails the predicate. -/
theorem head?_dropWhile_false {α} (p : α → Bool) (l : List α) {c : α}
    (h : (l.dropWhile p).head? = some c) : p c = false := by
  have := List.head?_dropWhile_not p l
  rw [h] at this
  exact this

/-- `stripChars` written with Mathlib's right-side `dropWhile`. -/
theorem stripChars_eq_rdropWhile (l : List Char) :
    stripChars l = List.rdropWhile Char.isWhitespace (l.dropWhile Char.isWhitespace) := rfl

/-- The head of a stripped character list is not whitespace. -/
theorem head?_stripChars_not_ws (l : List Char) {c : Char}
    (h : (stripChars l).head? = some c) : c.isWhitespace = false := by
  rw [stripChars_eq_rdropWhile] at h
  rcases List.rdropWhile_prefix (p := Char.isWhitespace)
      (l := l.dropWhile Char.isWhitespace) with ⟨t, ht⟩
  have hh : (l.dropWhile Char.isWhitespace).head? = some c := by
    rw [← ht]
    rcases hcons : List.rdropWhile Char.isWhitespace (l.dropWhile Char.isWhitespace) with
      _ | ⟨x, xs⟩
    · rw [hcons] at h; cases h
    · rw [hcons] at h
      simp only [List.head?_cons, Option.some.injEq] at h
      subst h
      rfl
  exact head?_dropWhile_false _ _ hh

/-- The last element of a stripped character list is not whitespace. -/
theorem getLast?_stripChars_not_ws (l : List Char) {c : Char}
    (h : (stripChars l).getLast? = some c) : c.isWhitespace = false := by
  rw [stripChars_eq_rdropWhile] at h
  have hne : List.rdropWhile Char.isWhitespace (l.dropWhile Char.isWhitespace) ≠ [] := by
    intro hnil
    rw [hnil] at h
    cases h
  have hlast := List.rdropWhile_last_not (p := Char.isWhitespace)
    (l := l.dropWhile Char.isWhitespace) hne
  rw [List.getLast?_eq_getLast_of_ne_nil hne] at h
  simp only [Option.some.injEq] at h
  subst h
  simpa using hlast

/-- Stripping a list whose two ends are not whitespace is the identity. -/
theorem stripChars_eq_self (l : List Char)
    (hh : ∀ c, l.head? = some c → c.isWhitespace = false)
    (hl : ∀ c, l.getLast? = some c → c.isWhitespace = false) :
    stripChars l = l := by
  rw [stripChars_eq_rdropWhile]
  have h1 : l.dropWhile Char.isWhitespace = l := by
    rw [List.dropWhile_eq_self_iff]
    intro hpos hp
    have := hh (l.get ⟨0, hpos⟩)
      (by simp [List.head?_eq_getElem?, List.getElem?_eq_getElem hpos, List.get_eq_getElem])
    rw [this] at hp
    cases hp
  rw [h1, List.rdropWhile_eq_self_iff]
  intro hne hp
  have := hl (l.getLast hne) (List.getLast?_eq_getLast_of_ne_nil hne)
  rw [this] at hp
  cases hp

/-- The column normalization of `clean_and_standardize` is idempotent. -/
theorem pyNormCol_idem (s : String) : pyNormCol (pyNormCol s) = pyNormCol s := by
  show pyUnderscore (pyLower (pyStrip (pyNormCol s))) = pyNormCol s
  have hdata : (pyNormCol s).data
      = ((stripChars s.data).map pyLowerChar).map subChar := rfl
  have hstrip : stripChars (pyNormCol s).data = (pyNormCol s).data := by
    apply stripChars_eq_self
    · intro c hc
      rw [hdata, List.head?_map, List.head?_map] at hc
      rcases hh : (stripChars s.data).head? with _ | ⟨x⟩
      · rw [hh] at hc; cases hc
      · rw [hh] at hc
        simp at hc
        subst hc
        exact isWhitespace_subChar
          (by rw [isWhitespace_pyLowerChar]; exact head?_stripChars_not_ws s.data hh)
    · intro c hc
      rw [hdata, List.getLast?_map, List.getLast?_map] at hc
      rcases hh : (stripChars s.data).getLast? with _ | ⟨x⟩
      · rw [hh] at hc; cases hc
      · rw [hh] at hc
        simp at hc
        subst hc
        exact isWhitespace_subChar
          (by rw [isWhitespace_pyLowerChar]; exact getLast?_stripChars_not_ws s.data hh)
  show String.mk (((stripChars (pyNormCol s).data).map pyLowerChar).map subChar)
      = pyNormCol s
  rw [hstrip, hdata, List.map_map, List.map_map, List.map_map]
  have hfun : (((subChar ∘ pyLowerChar) ∘ subChar) ∘ pyLowerChar)
      = (subChar ∘ pyLowerChar) := by
    funext c
    exact subChar_pyLowerChar_idem c
  rw [hfun, ← List.map_map]
  exact congrArg String.mk hdata.symm

/-- Every row surviving `drop_duplicates` came from the input. -/
theorem mem_dedupAux : ∀ (l seen : List Row), ∀ r ∈ dedupAux seen l, r ∈ l := by
  intro l
  induction l with
  | nil => intro seen r hr; simp [dedupAux] at hr
  | cons x rest ih =>
    intro seen r hr
    rw [dedupAux] at hr
    by_cases hx : seen.contains x
    · rw [if_pos hx] at hr
      exact List.mem_cons_of_mem _ (ih seen r hr)
    · rw [if_neg hx] at hr
      rcases List.mem_cons.mp hr with h1 | h2
      · exact h1 ▸ List.mem_cons_self x _
      · exact List.mem_cons_of_mem _ (ih _ r h2)

/-- Rows emitted by `dedupAux` were not among the already-seen rows. -/
theorem not_mem_seen_dedupAux :
    ∀ (l seen : List Row), ∀ r ∈ dedupAux seen l, r ∉ seen := by
  intro l
  induction l with
  | nil => intro seen r hr; simp [dedupAux] at hr
  | cons x rest ih =>
    intro seen r hr
    rw [dedupAux] at hr
    by_cases hx : seen.contains x
    · rw [if_pos hx] at hr
      exact ih seen r hr
    · rw [if_neg hx] at hr
      rcases List.mem_cons.mp hr with h1 | h2
      · subst h1
        simpa using hx
      · intro hseen
        exact ih (x :: seen) r h2 (List.mem_cons_of_mem _ hseen)

/-- `drop_duplicates` leaves no duplicate rows. -/
theorem nodup_dedupAux : ∀ (l seen : List Row), (dedupAux seen l).Nodup := by
  intro l
  induction l with
  | nil => intro seen; simp [dedupAux]
  | cons x rest ih =>
    intro seen
    rw [dedupAux]
    by_cases hx : seen.contains x
    · rw [if_pos hx]
      exact ih seen
    · rw [if_neg hx]
      refine List.nodup_cons.mpr ⟨?_, ih _⟩
      intro hmem
      exact not_mem_seen_dedupAux _ _ x hmem (List.mem_cons_self x seen)

/-- C8: for every keyword set and input file list, the consolidated table
has (i) no fully-null row, (ii) no duplicate rows, and (iii) only
normalized (lower-case, stripped, underscored) column names. -/
theorem claim_C8_unified_table_invariants (kws : List String) (files : List PyFile) :
    (∀ r ∈ (consolidate kws files).1.rows, isNullRow r = false)
    ∧ (consolidate kws files).1.rows.Nodup
    ∧ (∀ c ∈ (consolidate kws files).1.cols, pyNormCol c = c) := by
  rcases hre : read_excel_files kws files with ⟨t, w⟩
  have hc : (consolidate kws files).1 = deduplicate (clean_and_standardize t) := by
    rw [consolidate, hre]
  rw [hc]
  refine ⟨?_, ?_, ?_⟩
  · intro r hr
    have hmem := mem_dedupAux _ [] r hr
    have := (List.mem_filter.mp hmem).2
    simpa using this
  · exact nodup_dedupAux _ []
  · intro c hcm
    rcases List.mem_map.mp hcm with ⟨c0, _, hc0⟩
    rw [← hc0]
    exact pyNormCol_idem c0

/-- C8 witness: the invariants instantiated on a concrete one-file run, with
the quantified conjuncts applied to a concrete row and column. -/
theorem claim_C8_unified_table_invariants_witness :
    isNullRow [Value.str "x", Value.str "f1.xlsx", Value.str "s1"] = false
    ∧ (consolidate [] [fileW]).1.rows.Nodup
    ∧ pyNormCol "a_b" = "a_b" :=
  ⟨(claim_C8_unified_table_invariants [] [fileW]).1
      [Value.str "x", Value.str "f1.xlsx", Value.str "s1"] (by decide),
    (claim_C8_unified_table_invariants [] [fileW]).2.1,
    (claim_C8_unified_table_invariants [] [fileW]).2.2 "a_b" (by decide)⟩

/-- The table built by one file step depends only on the accumulated table,
and the warnings are appended to the accumulated warnings. -/
theorem processFile_shift (kws : List String) (t : Table) (w : List Warning)
    (f : PyFile) :
    (processFile kws (t, w) f).1 = (processFile kws (t, []) f).1
    ∧ (processFile kws (t, w) f).2 = w ++ (processFile kws (t, []) f).2 := by
  rcases hwb : f.wb with e | sheets
  · constructor <;> simp [processFile, hwb]
  · rcases hps : processSheets kws f.fname t sheets with ⟨t1, o⟩
    rcases o with _ | e <;> constructor <;> simp [processFile, hwb, hps]

/-- Folding the file loop from shifted warnings: the table is unchanged and
the warnings are prefixed. -/
theorem foldl_processFile_shift (kws : List String) :
    ∀ (fs : List PyFile) (t : Table) (w : List Warning),
    (fs.foldl (processFile kws) (t, w)).1 = (fs.foldl (processFile kws) (t, [])).1
    ∧ (fs.foldl (processFile kws) (t, w)).2
        = w ++ (fs.foldl (processFile kws) (t, [])).2 := by
  intro fs
  induction fs with
  | nil => intro t w; exact ⟨rfl, (List.append_nil w).symm⟩
  | cons f fs ih =>
    intro t w
    rcases hpf : processFile kws (t, []) f with ⟨t1, w1⟩
    have h1 : processFile kws (t, w) f = (t1, w ++ w1) := by
      have ha := (processFile_shift kws t w f).1
      have hb := (processFile_shift kws t w f).2
      rw [hpf] at ha hb
      exact Prod.ext ha hb
    rw [List.foldl_cons, List.foldl_cons, h1, hpf]
    refine ⟨?_, ?_⟩
    · rw [(ih t1 (w ++ w1)).1, (ih t1 w1).1]
    · rw [(ih t1 (w ++ w1)).2, (ih t1 w1).2, List.append_assoc]

/-- C2: a file whose workbook fails to open contributes a warning naming the
file and its error and nothing else: the accumulated table — and hence the
consolidated table — is exactly the one produced by the remaining files. -/
theorem claim_C2_file_failure_isolation (kws : List String)
    (pre post : List PyFile) (bad : PyFile) (e : String)
    (hbad : bad.wb = Except.error e) :
    (read_excel_files kws (pre ++ bad :: post)).1
        = (read_excel_files kws (pre ++ post)).1
    ∧ (⟨bad.fname, e⟩ : Warning) ∈ (read_excel_files kws (pre ++ bad :: post)).2
    ∧ (consolidate kws (pre ++ bad :: post)).1 = (consolidate kws (pre ++ post)).1 := by
  have htab : (read_excel_files kws (pre ++ bad :: post)).1
      = (read_excel_files kws (pre ++ post)).1 := by
    rw [read_excel_files, read_excel_files, List.foldl_append, List.foldl_append]
    rcases hacc : pre.foldl (processFile kws) (⟨[], []⟩, []) with ⟨t0, w0⟩
    have hbadstep : processFile kws (t0, w0) bad = (t0, w0 ++ [⟨bad.fname, e⟩]) := by
      rw [processFile, hbad]
    rw [List.foldl_cons, hbadstep]
    rw [(foldl_processFile_shift kws post t0 (w0 ++ [(⟨bad.fname, e⟩ : Warning)])).1,
      (foldl_processFile_shift kws post t0 w0).1]
  refine ⟨htab, ?_, ?_⟩
  · rw [read_excel_files, List.foldl_append]
    rcases hacc : pre.foldl (processFile kws) (⟨[], []⟩, []) with ⟨t0, w0⟩
    have hbadstep : processFile kws (t0, w0) bad = (t0, w0 ++ [⟨bad.fname, e⟩]) := by
      rw [processFile, hbad]
    rw [List.foldl_cons, hbadstep,
      (foldl_processFile_shift kws post t0 (w0 ++ [(⟨bad.fname, e⟩ : Warning)])).2]
    exact List.mem_append_left _ (List.mem_append_right _ (List.mem_singleton.mpr rfl))
  · rcases h1 : read_excel_files kws (pre ++ bad :: post) with ⟨ta, wa⟩
    rcases h2 : read_excel_files kws (pre ++ post) with ⟨tb, wb2⟩
    have : ta = tb := by
      rw [h1, h2] at htab
      exact htab
    rw [consolidate, h1, consolidate, h2, this]

/-- C2 witness: the theorem applied to a concrete run with a good file, a
corrupt file, and another good file. -/
theorem claim_C2_file_failure_isolation_witness :
    fileBad.wb = Except.error "corrupt"
    ∧ ((read_excel_files [] ([fileW] ++ fileBad :: [fileW2])).1
          = (read_excel_files [] ([fileW] ++ [fileW2])).1
      ∧ (⟨"f2.xlsx", "corrupt"⟩ : Warning)
          ∈ (read_excel_files [] ([fileW] ++ fileBad :: [fileW2])).2
      ∧ (consolidate [] ([fileW] ++ fileBad :: [fileW2])).1
          = (consolidate [] ([fileW] ++ [fileW2])).1) :=
  ⟨rfl, claim_C2_file_failure_isolation [] [fileW] [fileW2] fileBad "corrupt" rfl⟩

/-- The selection policy never produces an empty table from a non-empty
frame: every branch yields all rows, the non-empty matched rows, or the
full frame as a fallback. -/
theorem chooseResult_nonempty (df1 : Table) (mc : List String) (mr : List Row)
    (hr : df1.rows ≠ []) (hc : df1.cols ≠ []) :
    (chooseResult df1 mc mr).rows ≠ [] ∧ (chooseResult df1 mc mr).cols ≠ [] := by
  simp only [chooseResult]
  split
  · next hmc =>
    split
    · split
      · exact ⟨hr, hc⟩
      · next hcr =>
        constructor
        · simpa [selectCols] using hr
        · simpa [selectCols] using hcr
    · next hmr =>
      split
      · exact ⟨hmr, hc⟩
      · next hcr =>
        constructor
        · simpa [selectCols] using hmr
        · simpa [selectCols] using hcr
  · split
    · next hmr => exact ⟨hmr, hc⟩
    · exact ⟨hr, hc⟩

/-- Whatever table `smart_search` returns on a non-empty input is
non-empty. -/
theorem smart_search_ok_nonempty (kws : List String) (t R : Table)
    (hr : t.rows ≠ []) (hc : t.cols ≠ [])
    (hok : smart_search kws t = Except.ok R) :
    R.rows ≠ [] ∧ R.cols ≠ [] := by
  by_cases hk : kws = []
  · rw [smart_search, if_pos hk] at hok
    cases hok
    exact ⟨hr, hc⟩
  · simp only [smart_search, if_neg hk] at hok
    rcases hm : List.mapM (rowMatch kws) t.rows with e | tm
    · rw [hm] at hok
      cases hok
    · rw [hm] at hok
      have hok2 : Except.ok (chooseResult ⟨t.cols.map pyNormKw, t.rows⟩
          ((t.cols.map pyNormKw).filter fun c => kws.any fun k => pyInStr k c)
          ((t.rows.zip tm).filterMap fun p => if p.2 then some p.1 else none))
          = Except.ok R := hok
      cases hok2
      exact chooseResult_nonempty _ _ _ hr (by simpa using hc)

/-- Row counts add under `pd.concat`. -/
theorem pdConcat_rows_length (t1 t2 : Table) :
    (pdConcat t1 t2).rows.length = t1.rows.length + t2.rows.length := by
  simp [pdConcat]

/-- Tagging a sheet with a constant column does not change its row count. -/
theorem addConstCol_rows_length (t : Table) (c : String) (v : Value) :
    (addConstCol t c v).rows.length = t.rows.length := by
  rw [addConstCol]
  split <;> simp

/-- The in-place mutation does not change the row list. -/
theorem mutatedInput_rows (kws : List String) (df : Table) :
    (mutatedInput kws df).rows = df.rows := by
  rw [mutatedInput]
  split <;> rfl

/-- Unfolding one successfully matched sheet of the sheet loop. -/
theorem processSheets_cons_ok (kws : List String) (fname : String) (acc : Table)
    (s : Sheet) (rest : List Sheet) (filtered : Table)
    (hss : smart_search kws (addConstCol (addConstCol s.df "source_file"
      (Value.str fname)) "sheet_name" (Value.str s.sname)) = Except.ok filtered) :
    processSheets kws fname acc (s :: rest)
      = processSheets kws fname
          (if ¬ tableEmpty filtered then pdConcat acc filtered
           else pdConcat acc (mutatedInput kws (addConstCol (addConstCol s.df
             "source_file" (Value.str fname)) "sheet_name" (Value.str s.sname)))) rest := by
  rw [processSheets, hss]

/-- A sheet that parses, matches without an exception, and has at least one
row always contributes at least one row to the accumulated table — when the
matcher's result is empty, lines 27-28 concatenate the unfiltered frame
instead. -/
theorem processSheets_single_contrib (kws : List String) (fname : String)
    (acc : Table) (s : Sheet) (t' : Table)
    (hne : s.df.rows ≠ [])
    (h : processSheets kws fname acc [s] = (t', none)) :
    acc.rows.length + 1 ≤ t'.rows.length := by
  rcases hss : smart_search kws (addConstCol (addConstCol s.df "source_file"
      (Value.str fname)) "sheet_name" (Value.str s.sname)) with e | filtered
  · rw [processSheets, hss] at h
    injection h with h1 h2
    cases h2
  · rw [processSheets_cons_ok kws fname acc s [] filtered hss, processSheets] at h
    have ht : t' = (if ¬ tableEmpty filtered then pdConcat acc filtered
        else pdConcat acc (mutatedInput kws (addConstCol (addConstCol s.df "source_file"
          (Value.str fname)) "sheet_name" (Value.str s.sname)))) := by
      injection h with h1 h2
      rw [← h1]
    rw [ht]
    split
    · next hem =>
      rw [pdConcat_rows_length]
      rw [tableEmpty] at hem
      rcases hfr : filtered.rows with _ | _
      · rw [hfr] at hem
        simp at hem
      · simp [hfr]
    · rw [pdConcat_rows_length, mutatedInput_rows, addConstCol_rows_length,
        addConstCol_rows_length]
      rcases hsr : s.df.rows with _ | _
      · exact absurd hsr hne
      · simp [hsr]

/-- C10: (i) on a non-empty table, any table `smart_search` returns (it can
also raise, see C9) is non-empty, and (ii) `read_excel_files` falls back to
the unfiltered frame when the matcher's result is empty, so a successfully
parsed and matched non-empty sheet never contributes zero rows. -/
theorem claim_C10_no_empty_contribution :
    (∀ (kws : List String) (t R : Table), t.rows ≠ [] → t.cols ≠ [] →
        smart_search kws t = Except.ok R → R.rows ≠ [] ∧ R.cols ≠ [])
    ∧ (∀ (kws : List String) (fname : String) (acc : Table) (s : Sheet) (t' : Table),
        s.df.rows ≠ [] → processSheets kws fname acc [s] = (t', none) →
        acc.rows.length + 1 ≤ t'.rows.length) :=
  ⟨fun kws t R hr hc hok => smart_search_ok_nonempty kws t R hr hc hok,
   fun kws fname acc s t' hne h => processSheets_single_contrib kws fname acc s t' hne h⟩

/-- C10 witness: both parts applied to concrete inputs — a one-row table
filtered by the keyword `rev`, and a one-row sheet processed with no
keywords. -/
theorem claim_C10_no_empty_contribution_witness :
    (tabRev.rows ≠ [] ∧ tabRev.cols ≠ []
      ∧ smart_search ["rev"] tabRev = Except.ok tabRevOut
      ∧ (tabRevOut.rows ≠ [] ∧ tabRevOut.cols ≠ []))
    ∧ (sheetC.df.rows ≠ []
      ∧ processSheets [] "f" ⟨[], []⟩ [sheetC] = (tabSheetOut, none)
      ∧ (⟨[], []⟩ : Table).rows.length + 1 ≤ tabSheetOut.rows.length) :=
  ⟨⟨by decide, by decide, by rfl,
      claim_C10_no_empty_contribution.1 ["rev"] tabRev tabRevOut
        (by decide) (by decide) (by rfl)⟩,
    ⟨by decide, by rfl,
      claim_C10_no_empty_contribution.2 [] "f" ⟨[], []⟩ sheetC tabSheetOut
        (by decide) (by rfl)⟩⟩

/-- When every row fails the regex match, the whole `apply` returns a list
of `false`s. -/
theorem mapM_rowMatch_all_false (kws : List String) :
    ∀ (rs : List Row), (∀ r ∈ rs, rowMatch kws r = Except.ok false) →
    rs.mapM (rowMatch kws) = Except.ok (rs.map fun _ => false) := by
  intro rs
  induction rs with
  | nil => intro _; rfl
  | cons r rest ih =>
    intro hall
    rw [List.mapM_cons, hall r (List.mem_cons_self r rest),
      ih fun x hx => hall x (List.mem_cons_of_mem r hx)]
    rfl

/-- Zipping rows with all-`false` match results selects no row. -/
theorem filterMap_zip_false (rs : List Row) :
    ((rs.zip (rs.map fun _ => false)).filterMap
      fun p => if p.2 then some p.1 else none) = [] := by
  induction rs with
  | nil => rfl
  | cons r rest ih => simpa using ih

/-- C5 (amended): when the keywords are non-empty and match no normalized
column name and no cell, `smart_search` returns the whole unfiltered table —
but with its column names normalized in place (line 36), not the original
table verbatim. -/
theorem claim_C5_amended_no_match_fallback (kws : List String) (t : Table)
    (hkw : kws ≠ [])
    (hcols : ∀ c ∈ t.cols.map pyNormKw, ∀ k ∈ kws, pyInStr k c = false)
    (hrows : ∀ r ∈ t.rows, rowMatch kws r = Except.ok false) :
    smart_search kws t = Except.ok ⟨t.cols.map pyNormKw, t.rows⟩ := by
  simp only [smart_search, if_neg hkw]
  rw [mapM_rowMatch_all_false kws t.rows hrows]
  have hmc : ((t.cols.map pyNormKw).filter fun c => kws.any fun k => pyInStr k c) = [] := by
    rw [List.filter_eq_nil_iff]
    intro c hcm
    have : kws.any (fun k => pyInStr k c) = false := by
      rw [List.any_eq_false]
      intro k hk
      rw [hcols c hcm k hk]
      exact Bool.false_ne_true
    rw [this]
    exact Bool.false_ne_true
  have hch : chooseResult ⟨t.cols.map pyNormKw, t.rows⟩
      ((t.cols.map pyNormKw).filter fun c => kws.any fun k => pyInStr k c)
      ((t.rows.zip (t.rows.map fun _ => false)).filterMap
        fun p => if p.2 then some p.1 else none)
      = ⟨t.cols.map pyNormKw, t.rows⟩ := by
    rw [filterMap_zip_false, chooseResult, if_neg (by simpa using hmc)]
    simp
  exact congrArg Except.ok hch

/-- C5 amended witness: the amended theorem applied to the concrete table
with the non-normalized column `Revenue Total` and keyword `zzz`. -/
theorem claim_C5_amended_no_match_fallback_witness :
    ((["zzz"] : List String) ≠ []
      ∧ (∀ c ∈ (⟨["Revenue Total"], [[Value.str "x"]]⟩ : Table).cols.map pyNormKw,
          ∀ k ∈ ["zzz"], pyInStr k c = false)
      ∧ (∀ r ∈ (⟨["Revenue Total"], [[Value.str "x"]]⟩ : Table).rows,
          rowMatch ["zzz"] r = Except.ok false))
    ∧ smart_search ["zzz"] ⟨["Revenue Total"], [[Value.str "x"]]⟩
        = Except.ok ⟨(⟨["Revenue Total"], [[Value.str "x"]]⟩ : Table).cols.map pyNormKw,
            (⟨["Revenue Total"], [[Value.str "x"]]⟩ : Table).rows⟩ :=
  ⟨⟨by decide, by decide, by
      intro r hr
      rcases List.mem_singleton.mp hr with h
      rw [h]
      rfl⟩,
  claim_C5_amended_no_match_fallback ["zzz"] ⟨["Revenue Total"], [[Value.str "x"]]⟩
    (by decide) (by decide)
    (by
      intro r hr
      rcases List.mem_singleton.mp hr with h
      rw [h]
      rfl)⟩

/-- C5 counterexample: keywords `["zzz"]` match no column name and no cell
of the one-column table `⟨["Revenue Total"], [["x"]]⟩`, yet `smart_search`
does not return the original table: line 36 has already renamed the column
to `revenue_total` in place, so the fallback returns a table that differs
from `T` in its column names. -/
theorem claim_C5_counterexample :
    pyInStr "zzz" "Revenue Total" = false
      ∧ rowMatch ["zzz"] [Value.str "x"] = Except.ok false
      ∧ smart_search ["zzz"] ⟨["Revenue Total"], [[Value.str "x"]]⟩
          = Except.ok ⟨["revenue_total"], [[Value.str "x"]]⟩
      ∧ (⟨["revenue_total"], [[Value.str "x"]]⟩ : Table)
          ≠ ⟨["Revenue Total"], [[Value.str "x"]]⟩ := by
  exact ⟨by decide, by rfl, by rfl, by decide⟩

end App
